import Mathlib

/-!
Shallow embedding of the vector-service integration layer of the
MoneyraSupportBot repository, together with proofs of the specification
claims about it.

The embedding follows the TypeScript sources:
  * `src/kbManager/kbManager.ts` (KBManager: add/update with auto context,
    duplicate guard, embedding context generation, plain CRUD);
  * `src/kbManager/vectorIntegration.ts` (VectorIntegrationImpl:
    searchSimilarContent, calculateConfidence);
  * `src/vectorService/vectorServiceClient.ts` (VectorServiceClient:
    retryWithExponentialBackoff, makeRequest, healthCheck, categorizeError,
    getFallbackResponse);
  * `src/vectorService/errorHandler.ts` (VectorServiceErrorHandler:
    incrementErrorCount, isServiceDegraded);
  * `src/vectorService/recovery.ts` (VectorServiceRecovery:
    queueFailedOperation, processQueuedOperations).

Conventions used throughout:
  * JavaScript `Map` objects are modelled as lists in insertion order with
    JS `Map.set` semantics (`mapSet` replaces in place, otherwise appends).
  * Asynchronous calls that can reject are modelled as `Except` values
    passed in as parameters (the outcome of the awaited promise).
  * JSON text is modelled by a small `Json` value type; the empty string
    stored in the `context` column is modelled as `none` and a JSON text as
    `some j`, matching the only two shapes the code ever writes there.
  * Numbers carried by JSON are modelled as rationals; `JSON.stringify` on
    a numeric array followed by `JSON.parse` is exact in JavaScript, so the
    value-level round trip is faithfully represented at the AST level.
-/

/-- Model of a JSON value, as produced by `JSON.stringify` and consumed by
`JSON.parse`. Only the constructors the program can produce are needed. -/
inductive Json where
  | null : Json
  | bool (b : Bool) : Json
  | num (q : ℚ) : Json
  | str (s : String) : Json
  | arr (elems : List Json) : Json

/-- `JSON.stringify(Array.from(embedding))` from
`kbManager.generateEmbeddingContext`, at the level of JSON values: a numeric
array whose elements are the embedding entries in order. -/
def encodeVector (v : List ℚ) : Json :=
  Json.arr (v.map Json.num)

/-- Decode a list of JSON values as a numeric array (elementwise). -/
def decodeNums : List Json → Option (List ℚ)
  | [] => some []
  | j :: rest =>
    match j with
    | Json.num q => (decodeNums rest).map (fun v => q :: v)
    | _ => none

/-- `JSON.parse` of a stored context field interpreted as a numeric array. -/
def decodeVector : Json → Option (List ℚ)
  | Json.arr elems => decodeNums elems
  | _ => none

/-- `KBManager.generateEmbeddingContext` (kbManager.ts lines 229-253).
`hasVectorIntegration` is `this.vectorIntegration !== null`; `embedOutcome`
is the awaited result of `vectorIntegration.generateEmbedding`: `.error`
for a thrown error, `.ok none` for a `null` embedding, `.ok (some v)` for a
returned vector. The result is the persisted context field: `none` for the
empty string, `some j` for the JSON text of `j`. -/
def generateEmbeddingContext (hasVectorIntegration : Bool)
    (embedOutcome : Except Unit (Option (List ℚ))) : Option Json :=
  if hasVectorIntegration = false then none
  else
    match embedOutcome with
    | Except.error _ => none
    | Except.ok none => none
    | Except.ok (some embedding) =>
      if 0 < embedding.length then some (encodeVector embedding) else none

/-- Confidence tier of `AutoResponseResult` (vectorIntegration.ts). -/
inductive Confidence where
  | high : Confidence
  | medium : Confidence
  | low : Confidence
deriving DecidableEq

/-- `VectorIntegrationImpl.calculateConfidence` (vectorIntegration.ts lines
282-290). -/
def calculateConfidence (similarityScore : ℚ) : Confidence :=
  if (0.9 : ℚ) ≤ similarityScore then Confidence.high
  else if (0.75 : ℚ) ≤ similarityScore then Confidence.medium
  else Confidence.low

/-- `SearchResponse` from vectorService/types.ts; optional fields are
`Option`s (`none` = absent/undefined). -/
structure SearchResponse where
  success : Bool
  match_found : Bool
  similarity_score : Option ℚ
  kb_id : Option Nat
  answer : Option String
  message : String
deriving DecidableEq

/-- `AutoResponseResult` from vectorIntegration.ts. -/
structure AutoResponseResult where
  kbId : Nat
  answer : String
  similarityScore : ℚ
  confidence : Confidence
deriving DecidableEq

/-- `HealthResponse` from vectorService/types.ts. -/
structure HealthResponse where
  status : String
  message : Option String
deriving DecidableEq

/-- JavaScript truthiness of an optional number (`undefined` and `0` are
falsy). -/
def truthyNat (x : Option Nat) : Bool :=
  match x with
  | none => false
  | some n => decide (n ≠ 0)

/-- JavaScript truthiness of an optional string (`undefined` and `""` are
falsy). -/
def truthyStr (x : Option String) : Bool :=
  match x with
  | none => false
  | some s => decide (s ≠ "")

/-- `VectorIntegrationImpl.searchSimilarContent` (vectorIntegration.ts lines
174-229). `enabled` is the configured flag; `health` is the awaited
`healthCheck` result; `searchCall` is the awaited `vectorClient.searchSimilar`
outcome (`.error` models a thrown error, caught by the surrounding
`try`/`catch` which returns `null`). -/
def searchSimilarContent (enabled : Bool) (health : HealthResponse)
    (searchCall : Except Unit SearchResponse) (similarityThreshold : ℚ) :
    Option AutoResponseResult :=
  if enabled = false then none
  else if health.status ≠ "healthy" then none
  else
    match searchCall with
    | Except.error _ => none
    | Except.ok response =>
      if response.success = false then none
      else if response.match_found = false ∨ truthyNat response.kb_id = false ∨
          truthyStr response.answer = false ∨ response.similarity_score = none then none
      else
        let score := response.similarity_score.getD 0
        let confidence := calculateConfidence score
        if score < similarityThreshold then none
        else some ⟨response.kb_id.getD 0, response.answer.getD "", score, confidence⟩

/-- Outcome of one HTTP request as observed by `makeRequest`
(vectorServiceClient.ts lines 185-253): a 2xx response with a parsed body, a
non-2xx response with a status code and raw body, a network/timeout error,
or a body that failed to parse. -/
inductive RequestOutcome (α : Type) where
  | ok (value : α) : RequestOutcome α
  | httpError (statusCode : Nat) (body : String) : RequestOutcome α
  | netError (message : String) : RequestOutcome α
  | parseFailure (message : String) : RequestOutcome α

/-- `VectorServiceClient.makeRequest`: resolves with the parsed body on a
2xx status, rejects (`.error`) with the corresponding message otherwise. -/
def makeRequest {α : Type} (outcome : RequestOutcome α) : Except String α :=
  match outcome with
  | RequestOutcome.ok v => Except.ok v
  | RequestOutcome.httpError code body =>
    Except.error ("HTTP " ++ toString code ++ ": " ++ (if body = "" then "Unknown error" else body))
  | RequestOutcome.netError m => Except.error m
  | RequestOutcome.parseFailure m => Except.error ("Failed to parse response: " ++ m)

/-- `VectorServiceClient.healthCheck` (vectorServiceClient.ts lines
111-130): disabled short-circuit, single request with no retry, `catch`
returning status `"unhealthy"`. -/
def healthCheck (enabled : Bool) (outcome : RequestOutcome HealthResponse) :
    HealthResponse :=
  if enabled = false then ⟨"disabled", some "Vector service is disabled"⟩
  else
    match makeRequest outcome with
    | Except.ok r => r
    | Except.error msg => ⟨"unhealthy", some msg⟩

/-- A row of the `knowledge_base` table (dbManager/types.ts); the `context`
column is `none` for the empty string and `some j` for JSON text `j`. -/
structure KnowledgeBase where
  id : Nat
  category : String
  question : String
  context : Option Json
  answer : String

/-- The local SQLite store: rows plus the next `lastInsertRowid`. -/
structure Store where
  rows : List KnowledgeBase
  nextId : Nat

/-- `KBManager.getEntryById` (kbManager.ts lines 75-84). -/
def getEntryById (store : Store) (id : Nat) : Option KnowledgeBase :=
  store.rows.find? (fun r => r.id == id)

/-- `KBManager.addEntry` (kbManager.ts lines 281-296): inserts a row and
returns the new store together with `lastInsertRowid`. -/
def addEntry (store : Store) (category question : String) (context : Option Json)
    (answer : String) : Store × Nat :=
  let kbId := store.nextId
  (⟨store.rows ++ [⟨kbId, category, question, context, answer⟩], store.nextId + 1⟩, kbId)

/-- `KBManager.updateEntry` (kbManager.ts lines 298-314): updates the row
with the given id in place; the Boolean is `result.changes > 0`. -/
def updateEntry (store : Store) (id : Nat) (category question : String)
    (context : Option Json) (answer : String) : Store × Bool :=
  if store.rows.any (fun r => r.id == id) then
    (⟨store.rows.map (fun r => if r.id == id then ⟨id, category, question, context, answer⟩ else r),
      store.nextId⟩, true)
  else (store, false)

/-- Result record of `KBManager.checkForSimilarEntry`. -/
structure SimilarCheckResult where
  hasSimilar : Bool
  similarEntry : Option KnowledgeBase
  similarityScore : Option ℚ

/-- `KBManager.checkForSimilarEntry` (kbManager.ts lines 181-221).
`searchOutcome` is the awaited `vectorIntegration.searchSimilarContent`
call: `.error` for a thrown error (caught, returning no duplicate),
`.ok none` for `null`, `.ok (some r)` for a result. The JavaScript
truthiness tests `similarResult.kbId` and `excludeId` are modelled by
`truthyNat`. -/
def checkForSimilarEntry (hasVectorIntegration : Bool)
    (searchOutcome : Except Unit (Option AutoResponseResult))
    (store : Store) (excludeId : Option Nat) : SimilarCheckResult :=
  if hasVectorIntegration = false then ⟨false, none, none⟩
  else
    match searchOutcome with
    | Except.error _ => ⟨false, none, none⟩
    | Except.ok none => ⟨false, none, none⟩
    | Except.ok (some similarResult) =>
      if truthyNat (some similarResult.kbId) then
        if truthyNat excludeId = true ∧ similarResult.kbId = excludeId.getD 0 then
          ⟨false, none, none⟩
        else
          match getEntryById store similarResult.kbId with
          | some similarEntry => ⟨true, some similarEntry, some similarResult.similarityScore⟩
          | none => ⟨false, none, none⟩
      else ⟨false, none, none⟩

/-- The duplicate error thrown by the auto-context methods, carrying the
conflicting entry's id and question (the thrown message is
`Similar KB entry already exists: "<question>" (ID: <id>)`). -/
structure DuplicateError where
  id : Nat
  question : String
deriving DecidableEq

/-- `KBManager.addEntryWithAutoContext` (kbManager.ts lines 129-152).
The returned store is the store after the call; `.error` models the thrown
duplicate error (the row insertion never runs in that case). The
best-effort `syncVectorOnAdd` call does not touch the local store and is
not represented. -/
def addEntryWithAutoContext (hasVectorIntegration : Bool)
    (searchOutcome : Except Unit (Option AutoResponseResult))
    (embedOutcome : Except Unit (Option (List ℚ)))
    (store : Store) (category question answer : String) :
    Store × Except DuplicateError Nat :=
  let duplicateCheck := checkForSimilarEntry hasVectorIntegration searchOutcome store none
  if duplicateCheck.hasSimilar then
    (store, Except.error ⟨(duplicateCheck.similarEntry.map (fun e => e.id)).getD 0,
      (duplicateCheck.similarEntry.map (fun e => e.question)).getD ""⟩)
  else
    let embeddingContext := generateEmbeddingContext hasVectorIntegration embedOutcome
    let res := addEntry store category question embeddingContext answer
    (res.1, Except.ok res.2)

/-- `KBManager.updateEntryWithAutoContext` (kbManager.ts lines 154-173).
Same conventions as `addEntryWithAutoContext`; the similarity check is
called with `excludeId = id` and the throw is additionally guarded by
`duplicateCheck.similarEntry!.id !== id`. -/
def updateEntryWithAutoContext (hasVectorIntegration : Bool)
    (searchOutcome : Except Unit (Option AutoResponseResult))
    (embedOutcome : Except Unit (Option (List ℚ)))
    (store : Store) (id : Nat) (category question answer : String) :
    Store × Except DuplicateError Bool :=
  let duplicateCheck := checkForSimilarEntry hasVectorIntegration searchOutcome store (some id)
  if duplicateCheck.hasSimilar = true ∧ (duplicateCheck.similarEntry.map (fun e => e.id)).getD 0 ≠ id then
    (store, Except.error ⟨(duplicateCheck.similarEntry.map (fun e => e.id)).getD 0,
      (duplicateCheck.similarEntry.map (fun e => e.question)).getD ""⟩)
  else
    let embeddingContext := generateEmbeddingContext hasVectorIntegration embedOutcome
    let res := updateEntry store id category question embeddingContext answer
    (res.1, Except.ok res.2)

/-- `VectorServiceConfig` from vectorService/types.ts. -/
structure VectorServiceConfig where
  enabled : Bool
  baseUrl : String
  timeout : Nat
  retryAttempts : Nat
  retryDelay : Nat
  similarityThreshold : ℚ
  maxResponseLength : Nat

/-- Trace of one `retryWithExponentialBackoff` run: the successful value (if
any attempt succeeded), the number of attempts actually made, the waits
inserted between consecutive attempts (in order), and the error of the last
failed attempt. -/
structure RetryTrace (α : Type) where
  result : Option α
  attemptsMade : Nat
  waits : List Nat
  lastError : Option String

/-- The loop body of `VectorServiceClient.retryWithExponentialBackoff`
(vectorServiceClient.ts lines 151-183), with the attempt counter starting at
`attempt` and `fuel` remaining loop iterations (the caller passes
`fuel = retryAttempts` and `attempt = 1`). `op n` is the outcome of the
`n`-th network attempt. On failure at `attempt = retryAttempts` the loop
breaks with no further wait; otherwise it sleeps
`retryDelay * 2 ^ (attempt - 1)` and continues. -/
def retryFromAttempt {α : Type} (op : Nat → Except String α)
    (retryDelay retryAttempts : Nat) : Nat → Nat → RetryTrace α
  | _, 0 => ⟨none, 0, [], none⟩
  | attempt, fuel + 1 =>
    match op attempt with
    | Except.ok v => ⟨some v, 1, [], none⟩
    | Except.error e =>
      if attempt = retryAttempts then ⟨none, 1, [], some e⟩
      else
        let rest := retryFromAttempt op retryDelay retryAttempts (attempt + 1) fuel
        ⟨rest.result, rest.attemptsMade + 1,
          retryDelay * 2 ^ (attempt - 1) :: rest.waits,
          (rest.lastError).orElse (fun _ => some e)⟩

/-- `VectorServiceClient.retryWithExponentialBackoff`: run the attempt loop
from attempt 1. -/
def retryWithExponentialBackoff {α : Type} (config : VectorServiceConfig)
    (op : Nat → Except String α) : RetryTrace α :=
  retryFromAttempt op config.retryDelay config.retryAttempts 1 config.retryAttempts

/-- `VectorServiceError` enum from vectorService/types.ts. -/
inductive VectorServiceError where
  | SERVICE_UNAVAILABLE : VectorServiceError
  | TIMEOUT : VectorServiceError
  | INVALID_RESPONSE : VectorServiceError
  | NETWORK_ERROR : VectorServiceError
  | AUTHENTICATION_ERROR : VectorServiceError
  | VALIDATION_ERROR : VectorServiceError
deriving DecidableEq

/-- `VectorServiceErrorDetails` from vectorService/types.ts (the
`statusCode`/`originalError` fields play no role in the claims). -/
structure VectorServiceErrorDetails where
  error : VectorServiceError
  message : String
  operation : String
deriving DecidableEq

/-- JavaScript `String.prototype.includes`. -/
def strIncludes (s sub : String) : Bool :=
  decide (sub.toList <:+: s.toList)

/-- `VectorServiceClient.categorizeError` (vectorServiceClient.ts lines
255-298). -/
def categorizeError (errorMessage : String) (operation : String) :
    VectorServiceErrorDetails :=
  let message := errorMessage.toLower
  if strIncludes message "timeout" then
    ⟨VectorServiceError.TIMEOUT, errorMessage, operation⟩
  else if strIncludes message "econnrefused" || strIncludes message "enotfound" ||
      strIncludes message "econnreset" then
    ⟨VectorServiceError.SERVICE_UNAVAILABLE, errorMessage, operation⟩
  else if strIncludes message "network" || strIncludes message "socket" then
    ⟨VectorServiceError.NETWORK_ERROR, errorMessage, operation⟩
  else if strIncludes message "parse" || strIncludes message "json" then
    ⟨VectorServiceError.INVALID_RESPONSE, errorMessage, operation⟩
  else
    ⟨VectorServiceError.NETWORK_ERROR, errorMessage, operation⟩

/-- Response value returned to the caller of a client operation, covering
both `VectorResponse` and `SearchResponse` shapes: `matchFound` is `none`
for mutating operations and `some b` when the object carries a
`matchFound` field. -/
structure ClientResponse where
  success : Bool
  matchFound : Option Bool
  message : Option String
deriving DecidableEq

/-- `VectorServiceClient.getFallbackResponse` (vectorServiceClient.ts lines
323-344). -/
def getFallbackResponse (operationName : String) : ClientResponse :=
  if operationName = "addVector" ∨ operationName = "updateVector" ∨
      operationName = "deleteVector" then
    ⟨false, none, some "Vector service unavailable, operation skipped"⟩
  else if operationName = "searchSimilar" then
    ⟨false, some false, some "Vector service unavailable, no automated response available"⟩
  else
    ⟨false, none, some "Vector service unavailable"⟩

/-- Observable outcome of a whole client operation: the value returned to
the caller, the attempts made, the waits slept, and the error details
routed to the error handler (`none` when no attempt exhausted the retries). -/
structure OperationRun where
  response : ClientResponse
  attemptsMade : Nat
  waits : List Nat
  routedError : Option VectorServiceErrorDetails

/-- A client operation on an enabled service
(`retryWithExponentialBackoff` applied to `makeRequest`, vectorServiceClient.ts
lines 151-183): if some attempt succeeds its value is returned; if all
attempts fail, the last error is categorized, routed to the error handler,
and the deterministic fallback for `operationName` is returned — the
promise never rejects. -/
def runOperationWithRetry (config : VectorServiceConfig) (operationName : String)
    (op : Nat → Except String ClientResponse) : OperationRun :=
  let trace := retryWithExponentialBackoff config op
  match trace.result with
  | some v => ⟨v, trace.attemptsMade, trace.waits, none⟩
  | none =>
    let errorDetails := categorizeError ((trace.lastError).getD "") operationName
    ⟨getFallbackResponse operationName, trace.attemptsMade, trace.waits, some errorDetails⟩

/-- The `type` of a `VectorOperation` (recovery.ts). -/
inductive OpType where
  | add : OpType
  | update : OpType
  | delete : OpType
  | search : OpType
deriving DecidableEq

/-- `VectorOperation` from recovery.ts; the opaque `data` payload is kept as
a string. -/
structure VectorOperation where
  id : String
  type : OpType
  data : String
  timestamp : Nat
  retryCount : Nat
deriving DecidableEq

/-- The `failedOperations` JavaScript `Map`, as a list in insertion order. -/
abbrev OperationQueue := List VectorOperation

/-- `Map.get` on the queue: the entry with the given id, if any. -/
def lookupOperation (q : OperationQueue) (i : String) : Option VectorOperation :=
  q.find? (fun o => o.id == i)

/-- `Map.set`: a JS `Map` holds at most one entry per key; the entry with
this key is replaced in place when present, otherwise the new entry is
appended (insertion order). -/
def mapSet : OperationQueue → VectorOperation → OperationQueue
  | [], op => [op]
  | x :: xs, op => if x.id == op.id then op :: xs else x :: mapSet xs op

/-- `Map.delete`: remove the entry with this key, if present. -/
def mapDelete : OperationQueue → String → OperationQueue
  | [], _ => []
  | x :: xs, i => if x.id == i then xs else x :: mapDelete xs i

/-- `maxQueueSize` in `VectorServiceRecovery.queueFailedOperation`. -/
def maxQueueSize : Nat := 1000

/-- `VectorServiceRecovery.queueFailedOperation` (recovery.ts lines
233-247): when the queue is at capacity, the first-inserted key is deleted
(guarded by JS truthiness of the key, hence the `≠ ""` test), then the new
operation is inserted under its id. -/
def queueFailedOperation (q : OperationQueue) (op : VectorOperation) :
    OperationQueue :=
  let q1 :=
    if maxQueueSize ≤ q.length then
      match q.head? with
      | some oldest => if oldest.id ≠ "" then mapDelete q oldest.id else q
      | none => q
    else q
  mapSet q1 op

/-- `maxRetries` in `VectorServiceRecovery.processQueuedOperations`. -/
def maxRetries : Nat := 3

/-- The 24-hour age horizon (milliseconds) in `processQueuedOperations`. -/
def ageHorizonMs : Nat := 86400000

/-- Well-formedness of the queue as the image of a JavaScript `Map` whose
keys are generated by `queueOperationForRetry`: keys are pairwise distinct
and non-empty. -/
def QueueWF (q : OperationQueue) : Prop :=
  (q.map (fun o => o.id)).Nodup ∧ ∀ o ∈ q, o.id ≠ ""

/-- One iteration of the `for` loop of
`VectorServiceRecovery.processQueuedOperations` (recovery.ts lines 261-293):
the accumulator carries `processedOperations` and the live map. `replay`
is the outcome of `retryOperation` for the given operation id (`false`
also covers a thrown error, whose `catch` block behaves identically to a
`false` return: the retry counter is incremented and the item re-`set`). -/
def processOneOperation (now : Int) (replay : String → Bool)
    (acc : List String × OperationQueue) (operation : VectorOperation) :
    List String × OperationQueue :=
  if maxRetries ≤ operation.retryCount then (acc.1 ++ [operation.id], acc.2)
  else if (ageHorizonMs : Int) < now - (operation.timestamp : Int) then
    (acc.1 ++ [operation.id], acc.2)
  else if replay operation.id then (acc.1 ++ [operation.id], acc.2)
  else (acc.1, mapSet acc.2 { operation with retryCount := operation.retryCount + 1 })

/-- `VectorServiceRecovery.processQueuedOperations` (recovery.ts lines
249-300): early return on an empty queue, one pass over the snapshot of the
queue, then deletion of all processed ids. `now` is `Date.now()` during the
pass. The `isRecoveryRunning` mutual-exclusion flag is a concurrency guard
with no effect on a single pass and is not modelled. -/
def processQueuedOperations (now : Int) (replay : String → Bool)
    (q : OperationQueue) : OperationQueue :=
  if q.isEmpty then q
  else
    let result := q.foldl (processOneOperation now replay) ([], q)
    result.1.foldl (fun m i => mapDelete m i) result.2

/-- `operation.retryCount++` as performed on a kept queue item. -/
def bumpRetry (o : VectorOperation) : VectorOperation :=
  { o with retryCount := o.retryCount + 1 }

/-- Whether one drain-pass iteration ends with the item marked processed
(dropped for retries or age, or replayed successfully); otherwise the item
is re-`set` with its retry counter incremented. -/
def passCond (now : Int) (replay : String → Bool) (o : VectorOperation) : Bool :=
  decide (maxRetries ≤ o.retryCount) ||
    decide ((ageHorizonMs : Int) < now - (o.timestamp : Int)) || replay o.id

/-- Per-category error counters of `VectorServiceErrorHandler`, as a
JavaScript `Map` in insertion order. -/
abbrev ErrorCountMap := List (VectorServiceError × Nat)

/-- `Map.get` on a per-category map. -/
def alGet (m : ErrorCountMap) (k : VectorServiceError) : Option Nat :=
  (m.find? (fun p => p.1 == k)).map (fun p => p.2)

/-- `Map.set` on a per-category map. -/
def alSet (m : ErrorCountMap) (k : VectorServiceError) (v : Nat) : ErrorCountMap :=
  if m.any (fun p => p.1 == k) then
    m.map (fun p => if p.1 == k then (k, v) else p)
  else m ++ [(k, v)]

/-- The mutable state of `VectorServiceErrorHandler`: `errorCounts` and
`lastErrorTime` (errorHandler.ts lines 7-8). -/
structure ErrorHandlerState where
  errorCounts : ErrorCountMap
  lastErrorTime : ErrorCountMap

/-- `VectorServiceErrorHandler.incrementErrorCount` (errorHandler.ts lines
98-102); `now` is `Date.now()` at the call. -/
def incrementErrorCount (s : ErrorHandlerState) (error : VectorServiceError)
    (now : Nat) : ErrorHandlerState :=
  let currentCount := (alGet s.errorCounts error).getD 0
  ⟨alSet s.errorCounts error (currentCount + 1), alSet s.lastErrorTime error now⟩

/-- `degradationThreshold` in `isServiceDegraded`. -/
def degradationThreshold : Nat := 5

/-- The 5-minute `timeWindow` (milliseconds) in `isServiceDegraded`. -/
def degradationWindowMs : Nat := 300000

/-- `VectorServiceErrorHandler.isServiceDegraded` (errorHandler.ts lines
154-167): sums, over the categories whose last error time lies within the
trailing window, the full recorded count of that category. -/
def isServiceDegraded (s : ErrorHandlerState) (now : Nat) : Bool :=
  let recentErrors := s.lastErrorTime.foldl
    (fun acc p =>
      if (now : Int) - (p.2 : Int) < (degradationWindowMs : Int) then
        acc + (alGet s.errorCounts p.1).getD 0
      else acc) 0
  decide (degradationThreshold ≤ recentErrors)

/-- Run a history of error events (category, `Date.now()` at the event)
through `incrementErrorCount`, starting from the empty maps of a freshly
constructed handler. -/
def runErrorEvents (events : List (VectorServiceError × Nat)) : ErrorHandlerState :=
  events.foldl (fun s p => incrementErrorCount s p.1 p.2) ⟨[], []⟩

/-- All `VectorServiceError` categories. -/
def allErrorCategories : List VectorServiceError :=
  [VectorServiceError.SERVICE_UNAVAILABLE, VectorServiceError.TIMEOUT,
   VectorServiceError.INVALID_RESPONSE, VectorServiceError.NETWORK_ERROR,
   VectorServiceError.AUTHENTICATION_ERROR, VectorServiceError.VALIDATION_ERROR]

/-- Modelled from the spec: the degradation signal as claimed — degraded
exactly when some single category has at least `degradationThreshold`
errors recorded within the trailing window, errors recorded earlier than
the window not counting. Used to compare the claimed behaviour with
`isServiceDegraded`. -/
def degradedPerSpec (events : List (VectorServiceError × Nat)) (now : Nat) : Bool :=
  allErrorCategories.any (fun c =>
    degradationThreshold ≤
      (events.filter (fun p =>
        p.1 == c && decide ((now : Int) - (p.2 : Int) < (degradationWindowMs : Int)))).length)

/-- A configuration with the documented defaults (config.ts
`loadVectorServiceConfig`): enabled, 3 retry attempts, 1000 ms retry delay,
similarity threshold 0.7. Used as the concrete input of several witnesses. -/
def config₀ : VectorServiceConfig :=
  ⟨true, "http://localhost:8000", 5000, 3, 1000, (7 : ℚ)/10, 2000⟩

/-- A network attempt that always fails with a connection-refused error. -/
def failingAdd : Nat → Except String ClientResponse :=
  fun _ => Except.error "connect ECONNREFUSED 127.0.0.1:8000"

/-- A one-row store used by concrete witnesses. -/
def store₀ : Store := ⟨[⟨1, "billing", "q1", none, "a1"⟩], 2⟩

/-- A similarity match reported against the row of `store₀`. -/
def match₀ : AutoResponseResult := ⟨1, "a1", (9 : ℚ)/10, Confidence.high⟩

/-- A full (1000-entry) queue with pairwise distinct non-empty ids. -/
def bigQueue : OperationQueue :=
  (List.range maxQueueSize).map
    (fun n => ⟨String.mk (List.replicate (n + 1) 'a'), OpType.add, "", 0, 0⟩)

/-- A fresh operation enqueued into `bigQueue` by the witness. -/
def newOp : VectorOperation := ⟨"fresh", OpType.add, "", 0, 0⟩

theorem decodeNums_encode (v : List ℚ) : decodeNums (v.map Json.num) = some v := by
  induction v with
  | nil => rfl
  | cons q rest ih => simp [decodeNums, ih]

theorem decodeVector_encodeVector (v : List ℚ) :
    decodeVector (encodeVector v) = some v := by
  simp [decodeVector, encodeVector, decodeNums_encode]

/-- Claim C5: on the auto-context write path, when embedding generation
succeeds with a non-empty vector the persisted context field is the JSON
serialization of that vector and deserializing it yields the same numeric
array (same length and values); when the integration is absent, generation
throws, returns `null`, or returns an empty vector, the persisted context
field is the empty string (modelled as `none`). -/
theorem generateEmbeddingContext_roundtrip
    (embedding : List ℚ) (outcome : Except Unit (Option (List ℚ)))
    (hne : embedding ≠ []) :
    (generateEmbeddingContext true (Except.ok (some embedding)) =
        some (encodeVector embedding) ∧
      decodeVector (encodeVector embedding) = some embedding ∧
      ∀ v, decodeVector (encodeVector embedding) = some v →
        v.length = embedding.length) ∧
    generateEmbeddingContext false outcome = none ∧
    generateEmbeddingContext true (Except.error ()) = none ∧
    generateEmbeddingContext true (Except.ok none) = none ∧
    generateEmbeddingContext true (Except.ok (some [])) = none := by
  refine ⟨⟨?_, decodeVector_encodeVector embedding, ?_⟩, rfl, rfl, rfl, rfl⟩
  · simp [generateEmbeddingContext, List.length_pos.mpr hne]
  · intro v hv
    rw [decodeVector_encodeVector embedding] at hv
    cases hv
    rfl

/-- Witness for `generateEmbeddingContext_roundtrip` at the concrete vector
`[1/2, 3]`. -/
theorem generateEmbeddingContext_roundtrip_witness :
    generateEmbeddingContext true (Except.ok (some [(1 : ℚ)/2, 3])) =
      some (encodeVector [(1 : ℚ)/2, 3]) ∧
    decodeVector (encodeVector [(1 : ℚ)/2, 3]) = some [(1 : ℚ)/2, 3] := by
  have h := generateEmbeddingContext_roundtrip [(1 : ℚ)/2, 3] (Except.ok none)
    (by simp)
  exact ⟨h.1.1, h.1.2.1⟩

/-- Claim C8 counterexample: on an enabled service, a 2xx response whose
status string is `"degraded"` (not `"healthy"`) is returned unchanged by
`healthCheck`; the result's status is `"degraded"`, not `"unhealthy"` as the
claim states. -/
theorem healthCheck_passthrough_counterexample :
    (healthCheck true (RequestOutcome.ok ⟨"degraded", none⟩)).status = "degraded" ∧
    (healthCheck true (RequestOutcome.ok ⟨"degraded", none⟩)).status ≠ "unhealthy" := by
  exact ⟨rfl, by decide⟩

/-- Claim C8 (amended): `healthCheck` on an enabled service never throws: a
non-2xx HTTP response, a parse failure, or a network failure yields status
`"unhealthy"`, while a 2xx response is returned exactly as parsed — so a
2xx body with a non-`"healthy"` status string is passed through unchanged
rather than rewritten to `"unhealthy"` (its callers compare the status
against `"healthy"` themselves). -/
theorem healthCheck_never_throws :
    (∀ code body, (healthCheck true (RequestOutcome.httpError code body)).status = "unhealthy") ∧
    (∀ m, (healthCheck true (RequestOutcome.netError m)).status = "unhealthy") ∧
    (∀ m, (healthCheck true (RequestOutcome.parseFailure m)).status = "unhealthy") ∧
    (∀ r, healthCheck true (RequestOutcome.ok r) = r) := by
  exact ⟨fun _ _ => rfl, fun _ => rfl, fun _ => rfl, fun _ => rfl⟩

/-- Claim C3: for a `searchSimilarContent` call on an enabled, healthy
service whose backend response reports a match (success, match_found, a
non-zero kb id, a non-empty answer, a defined score): a score below the
configured threshold yields `none`; otherwise the result carries the match
id, answer and score, with confidence tier high for score ≥ 0.9, medium for
0.75 ≤ score < 0.9, and low otherwise. -/
theorem searchSimilarContent_threshold_and_tiers
    (health : HealthResponse) (response : SearchResponse)
    (similarityThreshold : ℚ) (i : Nat) (a : String) (s : ℚ)
    (hhealth : health.status = "healthy")
    (hsuccess : response.success = true)
    (hmatch : response.match_found = true)
    (hkb : response.kb_id = some i) (hi : i ≠ 0)
    (hans : response.answer = some a) (ha : a ≠ "")
    (hscore : response.similarity_score = some s) :
    (s < similarityThreshold →
      searchSimilarContent true health (Except.ok response) similarityThreshold = none) ∧
    (similarityThreshold ≤ s →
      searchSimilarContent true health (Except.ok response) similarityThreshold =
        some ⟨i, a, s, calculateConfidence s⟩) ∧
    ((0.9 : ℚ) ≤ s → calculateConfidence s = Confidence.high) ∧
    ((0.75 : ℚ) ≤ s ∧ s < (0.9 : ℚ) → calculateConfidence s = Confidence.medium) ∧
    (s < (0.75 : ℚ) → calculateConfidence s = Confidence.low) := by
  refine ⟨?_, ?_, ?_, ?_, ?_⟩
  · intro hlt
    simp [searchSimilarContent, hhealth, hsuccess, hmatch, hkb, hans, hscore,
      truthyNat, truthyStr, hi, ha, hlt]
  · intro hge
    simp [searchSimilarContent, hhealth, hsuccess, hmatch, hkb, hans, hscore,
      truthyNat, truthyStr, hi, ha, not_lt.mpr hge]
  · intro h
    simp [calculateConfidence, h]
  · intro h
    simp [calculateConfidence, h.1, not_le.mpr h.2]
  · intro h
    have h9 : ¬ (0.9 : ℚ) ≤ s := by
      intro hc
      have : (0.75 : ℚ) < (0.9 : ℚ) := by norm_num
      linarith
    simp [calculateConfidence, h9, not_le.mpr h]

/-- Witness for `searchSimilarContent_threshold_and_tiers` at a concrete
response with score 0.8 and threshold 0.7: a medium-confidence result. -/
theorem searchSimilarContent_witness :
    searchSimilarContent true ⟨"healthy", none⟩
      (Except.ok ⟨true, true, some ((4 : ℚ)/5), some 2, some "ans", ""⟩)
      ((7 : ℚ)/10) =
      some ⟨2, "ans", (4 : ℚ)/5, Confidence.medium⟩ := by
  have h := searchSimilarContent_threshold_and_tiers ⟨"healthy", none⟩
    ⟨true, true, some ((4 : ℚ)/5), some 2, some "ans", ""⟩ ((7 : ℚ)/10)
    2 "ans" ((4 : ℚ)/5) rfl rfl rfl rfl (by decide) rfl (by decide) rfl
  have hm := h.2.2.2.1 ⟨by norm_num, by norm_num⟩
  have hr := h.2.1 (by norm_num)
  rw [hm] at hr
  exact hr

theorem retryFromAttempt_allFail {α : Type} (op : Nat → Except String α)
    (errMsg : Nat → String) (d A : Nat)
    (hfail : ∀ n, op n = Except.error (errMsg n)) :
    ∀ fuel attempt, 1 ≤ attempt → attempt ≤ A → attempt + fuel = A + 1 →
      retryFromAttempt op d A attempt fuel =
        ⟨none, fuel, (List.range (fuel - 1)).map (fun i => d * 2 ^ (attempt - 1 + i)),
          some (errMsg A)⟩ := by
  intro fuel
  induction fuel with
  | zero => intro attempt h1 h2 h3; omega
  | succ fuel ih =>
    intro attempt h1 h2 h3
    simp only [retryFromAttempt, hfail attempt]
    by_cases hA : attempt = A
    · subst hA
      have hf : fuel = 0 := by omega
      subst hf
      simp
    · have hfpos : 1 ≤ fuel := by omega
      rw [if_neg hA, ih (attempt + 1) (by omega) (by omega) (by omega)]
      obtain ⟨f, rfl⟩ : ∃ f, fuel = f + 1 := ⟨fuel - 1, by omega⟩
      simp only [RetryTrace.mk.injEq, true_and, and_true]
      simp only [Nat.add_sub_cancel]
      rw [List.range_succ_eq_map, List.map_cons, List.map_map]
      have htail : List.map (fun i => d * 2 ^ (attempt + i)) (List.range f) =
          List.map ((fun i => d * 2 ^ (attempt - 1 + i)) ∘ Nat.succ) (List.range f) := by
        apply List.map_congr_left
        intro i _
        have hexp : attempt + i = attempt - 1 + Nat.succ i := by omega
        simp [Function.comp, hexp]
      rw [htail]
      have hhead : d * 2 ^ (attempt - 1) = d * 2 ^ (attempt - 1 + 0) := by simp
      rw [hhead]
      exact ⟨rfl, rfl⟩

/-- Claim C2: when every network attempt fails, a client operation on an
enabled service makes exactly `retryAttempts` attempts, the wait inserted
between attempt `n` and attempt `n+1` equals `retryDelay * 2 ^ (n - 1)`
(attempt indices starting at 1; the waits list below is indexed by
`n - 1`), and no wait follows the final attempt (the waits list has exactly
`retryAttempts - 1` entries). -/
theorem retryWithExponentialBackoff_exhaustion {α : Type}
    (config : VectorServiceConfig) (op : Nat → Except String α)
    (errMsg : Nat → String) (hA : 1 ≤ config.retryAttempts)
    (hfail : ∀ n, op n = Except.error (errMsg n)) :
    retryWithExponentialBackoff config op =
      ⟨none, config.retryAttempts,
        (List.range (config.retryAttempts - 1)).map
          (fun n => config.retryDelay * 2 ^ n),
        some (errMsg config.retryAttempts)⟩ := by
  unfold retryWithExponentialBackoff
  rw [retryFromAttempt_allFail op errMsg config.retryDelay config.retryAttempts hfail
    config.retryAttempts 1 le_rfl hA (by omega)]
  simp

/-- Witness for `retryWithExponentialBackoff_exhaustion` with 3 attempts and
a 1000 ms base delay: 3 attempts, waits `[1000, 2000]`. -/
theorem retryWithExponentialBackoff_exhaustion_witness :
    retryWithExponentialBackoff config₀
        (fun _ => (Except.error "timeout" : Except String ClientResponse)) =
      ⟨none, 3, [1000, 2000], some "timeout"⟩ := by
  have h := retryWithExponentialBackoff_exhaustion config₀
    (fun _ => (Except.error "timeout" : Except String ClientResponse))
    (fun _ => "timeout") (by decide) (fun _ => rfl)
  rw [h]
  rfl

/-- Claim C4 counterexample: at a concrete always-failing run, the fallback
for a mutating operation carries the message
`"Vector service unavailable, operation skipped"`, not the claimed literal
`"service unavailable, operation skipped"`. -/
theorem fallback_message_counterexample :
    (runOperationWithRetry config₀ "addVector" failingAdd).response.success = false ∧
    (runOperationWithRetry config₀ "addVector" failingAdd).response.message ≠
      some "service unavailable, operation skipped" ∧
    (runOperationWithRetry config₀ "addVector" failingAdd).response.message =
      some "Vector service unavailable, operation skipped" := by
  refine ⟨rfl, ?_, rfl⟩
  intro h
  have hmsg : ("Vector service unavailable, operation skipped" : String) =
      "service unavailable, operation skipped" := by
    have h2 : (runOperationWithRetry config₀ "addVector" failingAdd).response.message =
        some "Vector service unavailable, operation skipped" := rfl
    rw [h2] at h
    exact Option.some.inj h
  exact absurd hmsg (by decide)

/-- Claim C4 (amended): a client operation that exhausts all retry attempts
returns (never throws) a deterministic fallback value — for the mutating
operations `addVector`/`updateVector`/`deleteVector` the value
`{success := false, message := "Vector service unavailable, operation
skipped"}`, and for `searchSimilar` a value with `success = false` and
`matchFound = false` — after the classified final error is routed to the
error handler. -/
theorem runOperation_fallback (config : VectorServiceConfig)
    (op : Nat → Except String ClientResponse) (errMsg : Nat → String)
    (hA : 1 ≤ config.retryAttempts)
    (hfail : ∀ n, op n = Except.error (errMsg n)) :
    (∀ operationName,
      operationName = "addVector" ∨ operationName = "updateVector" ∨
        operationName = "deleteVector" →
      (runOperationWithRetry config operationName op).response =
        ⟨false, none, some "Vector service unavailable, operation skipped"⟩ ∧
      (runOperationWithRetry config operationName op).routedError =
        some (categorizeError (errMsg config.retryAttempts) operationName)) ∧
    ((runOperationWithRetry config "searchSimilar" op).response.success = false ∧
      (runOperationWithRetry config "searchSimilar" op).response.matchFound = some false ∧
      (runOperationWithRetry config "searchSimilar" op).routedError =
        some (categorizeError (errMsg config.retryAttempts) "searchSimilar")) := by
  have h := retryWithExponentialBackoff_exhaustion config op errMsg hA hfail
  constructor
  · intro operationName hname
    constructor
    · show (runOperationWithRetry config operationName op).response = _
      unfold runOperationWithRetry
      rw [h]
      rcases hname with h1 | h1 | h1 <;> subst h1 <;> rfl
    · unfold runOperationWithRetry
      rw [h]
      rfl
  · unfold runOperationWithRetry
    rw [h]
    exact ⟨rfl, rfl, rfl⟩

/-- Witness for `runOperation_fallback` at the default configuration and an
always-refused connection. -/
theorem runOperation_fallback_witness :
    (runOperationWithRetry config₀ "updateVector" failingAdd).response =
      ⟨false, none, some "Vector service unavailable, operation skipped"⟩ ∧
    (runOperationWithRetry config₀ "searchSimilar" failingAdd).response.matchFound =
      some false := by
  have h := runOperation_fallback config₀ failingAdd
    (fun _ => "connect ECONNREFUSED 127.0.0.1:8000") (by decide) (fun _ => rfl)
  exact ⟨(h.1 "updateVector" (Or.inr (Or.inl rfl))).1, h.2.2.1⟩

/-- Claim C1: when the similarity check finds a matching entry (the remote
search reports a kb id whose row exists in the store), an
`addEntryWithAutoContext` call fails with a duplicate error carrying the
conflicting entry's id and question and leaves the store unchanged; an
`updateEntryWithAutoContext` call whose matched id equals the id being
updated does not fail, while a matched id different from the updated id
produces the same duplicate failure with the store unchanged. -/
theorem autoContext_duplicate_guard
    (store : Store) (r : AutoResponseResult) (e : KnowledgeBase)
    (embedOutcome : Except Unit (Option (List ℚ)))
    (category question answer : String)
    (hkb : r.kbId ≠ 0)
    (hentry : getEntryById store r.kbId = some e) :
    (addEntryWithAutoContext true (Except.ok (some r)) embedOutcome
        store category question answer =
      (store, Except.error ⟨e.id, e.question⟩)) ∧
    (∀ id, r.kbId = id →
      (updateEntryWithAutoContext true (Except.ok (some r)) embedOutcome
          store id category question answer).2 =
        Except.ok (updateEntry store id category question
          (generateEmbeddingContext true embedOutcome) answer).2) ∧
    (∀ id, r.kbId ≠ id →
      updateEntryWithAutoContext true (Except.ok (some r)) embedOutcome
          store id category question answer =
        (store, Except.error ⟨e.id, e.question⟩)) := by
  have heid : e.id = r.kbId := by
    have hentry2 : store.rows.find? (fun o => o.id == r.kbId) = some e := hentry
    have hfind := List.find?_some hentry2
    simpa using hfind
  refine ⟨?_, ?_, ?_⟩
  · have hchk : checkForSimilarEntry true (Except.ok (some r)) store none =
        ⟨true, some e, some r.similarityScore⟩ := by
      simp [checkForSimilarEntry, truthyNat, hkb, hentry]
    simp [addEntryWithAutoContext, hchk]
  · intro id hid
    subst hid
    have hchk : checkForSimilarEntry true (Except.ok (some r)) store (some r.kbId) =
        ⟨false, none, none⟩ := by
      simp [checkForSimilarEntry, truthyNat, hkb]
    simp [updateEntryWithAutoContext, hchk]
  · intro id hid
    have hchk : checkForSimilarEntry true (Except.ok (some r)) store (some id) =
        ⟨true, some e, some r.similarityScore⟩ := by
      simp [checkForSimilarEntry, truthyNat, hkb, hentry, hid]
    have hne : e.id ≠ id := heid ▸ hid
    simp [updateEntryWithAutoContext, hchk, hne]

/-- Witness for `autoContext_duplicate_guard` against the one-row store
`store₀` and the match `match₀` on its row. -/
theorem autoContext_duplicate_guard_witness :
    addEntryWithAutoContext true (Except.ok (some match₀)) (Except.ok none)
        store₀ "billing" "q2" "a2" =
      (store₀, Except.error ⟨1, "q1"⟩) ∧
    (updateEntryWithAutoContext true (Except.ok (some match₀)) (Except.ok none)
        store₀ 1 "billing" "q2" "a2").2 = Except.ok true ∧
    updateEntryWithAutoContext true (Except.ok (some match₀)) (Except.ok none)
        store₀ 2 "billing" "q2" "a2" =
      (store₀, Except.error ⟨1, "q1"⟩) := by
  have h := autoContext_duplicate_guard store₀ match₀ ⟨1, "billing", "q1", none, "a1"⟩
    (Except.ok none) "billing" "q2" "a2" (by decide) rfl
  refine ⟨h.1, ?_, h.2.2 2 (by decide)⟩
  have h2 := h.2.1 1 rfl
  rw [h2]
  rfl

/-- Claim C10: when the remote search reports a matching id whose row is
absent from the local store (a stale remote vector), `checkForSimilarEntry`
reports no duplicate and `addEntryWithAutoContext` proceeds with the
insertion; likewise a thrown error during the similarity check reports no
duplicate, so the write proceeds without duplicate protection. -/
theorem checkForSimilarEntry_stale_and_thrown
    (store : Store) (excludeId : Option Nat) (r : AutoResponseResult)
    (embedOutcome : Except Unit (Option (List ℚ)))
    (category question answer : String)
    (hstale : getEntryById store r.kbId = none) :
    checkForSimilarEntry true (Except.ok (some r)) store excludeId =
      ⟨false, none, none⟩ ∧
    checkForSimilarEntry true (Except.error ()) store excludeId =
      ⟨false, none, none⟩ ∧
    addEntryWithAutoContext true (Except.ok (some r)) embedOutcome
        store category question answer =
      ((addEntry store category question
          (generateEmbeddingContext true embedOutcome) answer).1,
        Except.ok (addEntry store category question
          (generateEmbeddingContext true embedOutcome) answer).2) ∧
    addEntryWithAutoContext true (Except.error ()) embedOutcome
        store category question answer =
      ((addEntry store category question
          (generateEmbeddingContext true embedOutcome) answer).1,
        Except.ok (addEntry store category question
          (generateEmbeddingContext true embedOutcome) answer).2) := by
  have h1 : ∀ ex, checkForSimilarEntry true (Except.ok (some r)) store ex =
      ⟨false, none, none⟩ := by
    intro ex
    unfold checkForSimilarEntry
    simp only [Bool.true_eq_false, if_false]
    split_ifs with hkb hex
    all_goals simp [hstale]
  refine ⟨h1 excludeId, rfl, ?_, rfl⟩
  simp [addEntryWithAutoContext, h1 none]

/-- Witness for `checkForSimilarEntry_stale_and_thrown`: the remote match
points at id 7, absent from `store₀`; the add proceeds and inserts row 2. -/
theorem checkForSimilarEntry_stale_witness :
    checkForSimilarEntry true (Except.ok (some ⟨7, "a7", (9 : ℚ)/10, Confidence.high⟩))
        store₀ none = ⟨false, none, none⟩ ∧
    addEntryWithAutoContext true
        (Except.ok (some ⟨7, "a7", (9 : ℚ)/10, Confidence.high⟩)) (Except.ok none)
        store₀ "billing" "q2" "a2" =
      (⟨[⟨1, "billing", "q1", none, "a1"⟩, ⟨2, "billing", "q2", none, "a2"⟩], 3⟩,
        Except.ok 2) := by
  have h := checkForSimilarEntry_stale_and_thrown store₀ none
    ⟨7, "a7", (9 : ℚ)/10, Confidence.high⟩ (Except.ok none)
    "billing" "q2" "a2" rfl
  refine ⟨h.1, ?_⟩
  rw [h.2.2.1]
  rfl

theorem incrementErrorCount_single (c : VectorServiceError) (n t0 t : Nat) :
    incrementErrorCount ⟨[(c, n)], [(c, t0)]⟩ c t = ⟨[(c, n + 1)], [(c, t)]⟩ := by
  simp [incrementErrorCount, alGet, alSet]

theorem foldl_increment_single (c : VectorServiceError) :
    ∀ (ts : List Nat) (n t0 : Nat),
      (ts.map (fun t => (c, t))).foldl (fun s p => incrementErrorCount s p.1 p.2)
          ⟨[(c, n)], [(c, t0)]⟩ =
        ⟨[(c, n + ts.length)], [(c, (ts.getLast?).getD t0)]⟩ := by
  intro ts
  induction ts with
  | nil => intro n t0; simp
  | cons t ts ih =>
    intro n t0
    simp only [List.map_cons, List.foldl_cons]
    rw [incrementErrorCount_single, ih (n + 1) t]
    have hc : n + 1 + ts.length = n + (t :: ts).length := by
      simp only [List.length_cons]
      omega
    have hl : (ts.getLast?).getD t = ((t :: ts).getLast?).getD t0 := by
      cases ts with
      | nil => rfl
      | cons t2 ts2 =>
        obtain ⟨l, hl2⟩ : ∃ l, (t2 :: ts2).getLast? = some l := by
          have h1 : ((t2 :: ts2).getLast?).isSome = true :=
            List.getLast?_isSome.mpr (by simp)
          exact Option.isSome_iff_exists.mp h1
        rw [List.getLast?_cons_cons, hl2]
        rfl
    rw [hc, hl]

theorem runErrorEvents_single (c : VectorServiceError) (t : Nat) (ts : List Nat) :
    runErrorEvents ((t :: ts).map (fun x => (c, x))) =
      ⟨[(c, (t :: ts).length)], [(c, ((t :: ts).getLast?).getD t)]⟩ := by
  unfold runErrorEvents
  simp only [List.map_cons, List.foldl_cons]
  have h0 : incrementErrorCount ⟨[], []⟩ c t = ⟨[(c, 1)], [(c, t)]⟩ := by
    simp [incrementErrorCount, alGet, alSet]
  rw [h0, foldl_increment_single c ts 1 t]
  have hc : 1 + ts.length = (t :: ts).length := by
    simp only [List.length_cons]
    omega
  have hl : (ts.getLast?).getD t = ((t :: ts).getLast?).getD t := by
    cases ts with
    | nil => rfl
    | cons t2 ts2 => rw [List.getLast?_cons_cons]
  rw [hc, hl]

/-- Claim C9 counterexample: four errors recorded long before the trailing
window plus one recent error of the same category make `isServiceDegraded`
report `true`, although only one error lies within the window — errors
recorded earlier than the trailing window do count whenever the category's
latest error is recent, contradicting the claim (`degradedPerSpec` is the
claimed behaviour). -/
theorem isServiceDegraded_counterexample :
    isServiceDegraded (runErrorEvents
      [(VectorServiceError.NETWORK_ERROR, 0), (VectorServiceError.NETWORK_ERROR, 0),
       (VectorServiceError.NETWORK_ERROR, 0), (VectorServiceError.NETWORK_ERROR, 0),
       (VectorServiceError.NETWORK_ERROR, 300000)]) 300001 = true ∧
    degradedPerSpec
      [(VectorServiceError.NETWORK_ERROR, 0), (VectorServiceError.NETWORK_ERROR, 0),
       (VectorServiceError.NETWORK_ERROR, 0), (VectorServiceError.NETWORK_ERROR, 0),
       (VectorServiceError.NETWORK_ERROR, 300000)] 300001 = false := by
  exact ⟨rfl, rfl⟩

/-- Claim C9 (amended): `isServiceDegraded` counts, for every category whose
most recent error lies within the trailing 5-minute window, the category's
full historical error count — errors recorded earlier than the window still
count toward the threshold of 5 as long as the category's latest error is
recent. For a history confined to a single category this means: degraded
holds exactly when at least 5 errors were ever recorded and the latest one
lies within the window. -/
theorem isServiceDegraded_single_category (c : VectorServiceError)
    (times : List Nat) (now : Nat) :
    isServiceDegraded (runErrorEvents (times.map (fun t => (c, t)))) now =
      ((decide (degradationThreshold ≤ times.length)) &&
        ((times.getLast?).elim false
          (fun t => decide ((now : Int) - (t : Int) < (degradationWindowMs : Int))))) := by
  cases times with
  | nil => rfl
  | cons t ts =>
    rw [runErrorEvents_single]
    obtain ⟨l, hl⟩ : ∃ l, (t :: ts).getLast? = some l := by
      have h1 : ((t :: ts).getLast?).isSome = true :=
        List.getLast?_isSome.mpr (by simp)
      exact Option.isSome_iff_exists.mp h1
    rw [hl]
    unfold isServiceDegraded
    simp only [List.foldl_cons, List.foldl_nil, Option.getD_some, Option.elim]
    by_cases hcond : (now : Int) - (l : Int) < (degradationWindowMs : Int)
    · simp [hcond, alGet]
    · simp [hcond, degradationThreshold]

theorem mapSet_length_le (q : OperationQueue) (op : VectorOperation) :
    (mapSet q op).length ≤ q.length + 1 := by
  induction q with
  | nil => simp [mapSet]
  | cons x xs ih =>
    by_cases h : (x.id == op.id) = true
    · simp [mapSet, h]
    · simp only [mapSet, if_neg h, List.length_cons]
      omega

theorem mem_mapSet {q : OperationQueue} {op o : VectorOperation}
    (h : o ∈ mapSet q op) : o ∈ q ∨ o = op := by
  induction q with
  | nil =>
    simp [mapSet] at h
    exact Or.inr h
  | cons x xs ih =>
    by_cases hb : (x.id == op.id) = true
    · simp only [mapSet, if_pos hb, List.mem_cons] at h
      rcases h with h | h
      · exact Or.inr h
      · exact Or.inl (List.mem_cons_of_mem _ h)
    · simp only [mapSet, if_neg hb, List.mem_cons] at h
      rcases h with h | h
      · exact Or.inl (h ▸ List.mem_cons_self _ _)
      · rcases ih h with h2 | h2
        · exact Or.inl (List.mem_cons_of_mem _ h2)
        · exact Or.inr h2

theorem mem_mapDelete {q : OperationQueue} {i : String} {o : VectorOperation}
    (h : o ∈ mapDelete q i) : o ∈ q := by
  induction q with
  | nil => simp [mapDelete] at h
  | cons x xs ih =>
    by_cases hb : (x.id == i) = true
    · simp only [mapDelete, if_pos hb] at h
      exact List.mem_cons_of_mem _ h
    · simp only [mapDelete, if_neg hb, List.mem_cons] at h
      rcases h with h | h
      · exact h ▸ List.mem_cons_self _ _
      · exact List.mem_cons_of_mem _ (ih h)

theorem mem_queueFailedOperation {q : OperationQueue} {op o : VectorOperation}
    (ho : o ∈ queueFailedOperation q op) : o ∈ q ∨ o = op := by
  unfold queueFailedOperation at ho
  rcases mem_mapSet ho with h | h
  · left
    split at h
    · split at h
      · split at h
        · exact mem_mapDelete h
        · exact h
      · exact h
    · exact h
  · exact Or.inr h

theorem queueFailedOperation_length (q : OperationQueue) (op : VectorOperation)
    (hids : ∀ o ∈ q, o.id ≠ "") (hlen : q.length ≤ maxQueueSize) :
    (queueFailedOperation q op).length ≤ maxQueueSize := by
  unfold queueFailedOperation
  by_cases hcap : maxQueueSize ≤ q.length
  · have hq : q.length = maxQueueSize := le_antisymm hlen hcap
    cases q with
    | nil => simp [maxQueueSize] at hq
    | cons h t =>
      have hh : h.id ≠ "" := hids h (List.mem_cons_self _ _)
      rw [if_pos hcap]
      simp only [List.head?_cons]
      rw [if_pos hh]
      have hdel : mapDelete (h :: t) h.id = t := by simp [mapDelete]
      rw [hdel]
      have hms := mapSet_length_le t op
      have hlc : (h :: t).length = t.length + 1 := List.length_cons h t
      omega
  · rw [if_neg hcap]
    show (mapSet q op).length ≤ maxQueueSize
    have hms := mapSet_length_le q op
    omega

theorem queueFold_bound :
    ∀ (ops : List VectorOperation) (q : OperationQueue),
      (∀ o ∈ q, o.id ≠ "") → (∀ o ∈ ops, o.id ≠ "") → q.length ≤ maxQueueSize →
      (ops.foldl queueFailedOperation q).length ≤ maxQueueSize ∧
      (∀ o ∈ ops.foldl queueFailedOperation q, o.id ≠ "") := by
  intro ops
  induction ops with
  | nil => intro q h1 h2 h3; exact ⟨h3, h1⟩
  | cons op rest ih =>
    intro q h1 h2 h3
    simp only [List.foldl_cons]
    apply ih
    · intro o ho
      rcases mem_queueFailedOperation ho with h | h
      · exact h1 o h
      · exact h ▸ h2 op (List.mem_cons_self _ _)
    · intro o ho
      exact h2 o (List.mem_cons_of_mem _ ho)
    · exact queueFailedOperation_length q op h1 h3

/-- Claim C6: enqueueing into a queue at its fixed capacity (1000) evicts
exactly the single oldest entry (the head, in insertion order) before the
new operation is inserted, and after any sequence of enqueues starting from
a queue within capacity the queue size never exceeds the capacity. The
hypothesis is that the queued ids are non-empty, as generated by
`queueOperationForRetry`. -/
theorem queueFailedOperation_bound (q : OperationQueue) (op : VectorOperation)
    (hids : ∀ o ∈ q, o.id ≠ "") :
    (q.length = maxQueueSize → queueFailedOperation q op = mapSet q.tail op) ∧
    (q.length ≤ maxQueueSize → (queueFailedOperation q op).length ≤ maxQueueSize) ∧
    (∀ ops : List VectorOperation, (∀ o ∈ ops, o.id ≠ "") →
      q.length ≤ maxQueueSize →
      (ops.foldl queueFailedOperation q).length ≤ maxQueueSize) := by
  refine ⟨?_, fun hlen => queueFailedOperation_length q op hids hlen, ?_⟩
  · intro hlen
    cases q with
    | nil => simp [maxQueueSize] at hlen
    | cons h t =>
      have hh : h.id ≠ "" := hids h (List.mem_cons_self _ _)
      unfold queueFailedOperation
      rw [if_pos (by omega : maxQueueSize ≤ (h :: t).length)]
      simp only [List.head?_cons]
      rw [if_pos hh]
      have hdel : mapDelete (h :: t) h.id = t := by simp [mapDelete]
      rw [hdel]
      rfl
  · intro ops hops hlen
    exact (queueFold_bound ops q hids hops hlen).1

/-- Witness for `queueFailedOperation_bound` at the full queue `bigQueue`:
the oldest entry is evicted before the fresh operation is inserted, and the
size stays within capacity. -/
theorem queueFailedOperation_bound_witness :
    queueFailedOperation bigQueue newOp = mapSet bigQueue.tail newOp ∧
    (queueFailedOperation bigQueue newOp).length ≤ maxQueueSize := by
  have hids : ∀ o ∈ bigQueue, o.id ≠ "" := by
    intro o ho
    obtain ⟨n, hn, rfl⟩ := List.mem_map.mp ho
    intro hctr
    have h2 := congrArg String.data hctr
    simp [List.replicate_succ] at h2
  have h := queueFailedOperation_bound bigQueue newOp hids
  have hlen : bigQueue.length = maxQueueSize := by simp [bigQueue]
  exact ⟨h.1 hlen, h.2.1 (le_of_eq hlen)⟩

theorem lookupOperation_mapSet_self (q : OperationQueue) (op : VectorOperation) :
    lookupOperation (mapSet q op) op.id = some op := by
  induction q with
  | nil =>
    unfold mapSet lookupOperation
    rw [List.find?_cons_of_pos _ (by simp)]
  | cons x xs ih =>
    by_cases hb : (x.id == op.id) = true
    · simp only [mapSet, if_pos hb]
      unfold lookupOperation
      rw [List.find?_cons_of_pos _ (by simp)]
    · simp only [mapSet, if_neg hb]
      unfold lookupOperation at ih ⊢
      rw [List.find?_cons_of_neg _ (by simp only [hb]; exact Bool.false_ne_true)]
      exact ih

theorem lookupOperation_mapSet_ne (q : OperationQueue) (op : VectorOperation)
    (i : String) (hne : i ≠ op.id) :
    lookupOperation (mapSet q op) i = lookupOperation q i := by
  have hbne : (op.id == i) = false := beq_eq_false_iff_ne.mpr (Ne.symm hne)
  induction q with
  | nil =>
    unfold mapSet lookupOperation
    rw [List.find?_cons_of_neg _ (by simp [hbne])]
  | cons x xs ih =>
    by_cases hb : (x.id == op.id) = true
    · simp only [mapSet, if_pos hb]
      have hx : (x.id == i) = false := by
        have hxid : x.id = op.id := by simpa using hb
        rw [hxid]; exact hbne
      unfold lookupOperation
      rw [List.find?_cons_of_neg _ (by simp [hbne]),
        List.find?_cons_of_neg _ (by simp [hx])]
    · simp only [mapSet, if_neg hb]
      unfold lookupOperation at ih ⊢
      by_cases hxi : (x.id == i) = true
      · simp only [List.find?, hxi]
      · rw [Bool.not_eq_true] at hxi
        simp only [List.find?, hxi]
        exact ih

theorem lookupOperation_eq_none {q : OperationQueue} {i : String}
    (h : i ∉ q.map (fun o => o.id)) : lookupOperation q i = none := by
  unfold lookupOperation
  rw [List.find?_eq_none]
  intro x hx hpx
  exact h (List.mem_map.mpr ⟨x, hx, by simpa using hpx⟩)

theorem lookupOperation_mapDelete_ne (q : OperationQueue) (j i : String)
    (hne : i ≠ j) :
    lookupOperation (mapDelete q j) i = lookupOperation q i := by
  induction q with
  | nil => rfl
  | cons x xs ih =>
    by_cases hb : (x.id == j) = true
    · simp only [mapDelete, if_pos hb]
      have hx : (x.id == i) = false := by
        have hxj : x.id = j := by simpa using hb
        rw [hxj]
        exact beq_eq_false_iff_ne.mpr (Ne.symm hne)
      unfold lookupOperation
      rw [List.find?_cons_of_neg _ (by simp [hx])]
    · simp only [mapDelete, if_neg hb]
      unfold lookupOperation at ih ⊢
      by_cases hxi : (x.id == i) = true
      · simp only [List.find?, hxi]
      · rw [Bool.not_eq_true] at hxi
        simp only [List.find?, hxi]
        exact ih

theorem mapDelete_ids_sublist (q : OperationQueue) (j : String) :
    List.Sublist ((mapDelete q j).map (fun o => o.id)) (q.map (fun o => o.id)) := by
  induction q with
  | nil => simp [mapDelete]
  | cons x xs ih =>
    by_cases hb : (x.id == j) = true
    · simp only [mapDelete, if_pos hb, List.map_cons]
      exact List.sublist_cons_self _ _
    · simp only [mapDelete, if_neg hb, List.map_cons]
      exact List.Sublist.cons₂ _ ih

theorem mapDelete_self_not_mem {q : OperationQueue} {i : String}
    (hnd : (q.map (fun o => o.id)).Nodup) :
    i ∉ (mapDelete q i).map (fun o => o.id) := by
  induction q with
  | nil => simp [mapDelete]
  | cons x xs ih =>
    have hnd2 : x.id ∉ xs.map (fun o => o.id) ∧ ((xs.map (fun o => o.id)).Nodup) := by
      simpa [List.nodup_cons] using hnd
    by_cases hb : (x.id == i) = true
    · simp only [mapDelete, if_pos hb]
      have hxi : x.id = i := by simpa using hb
      rw [← hxi]
      exact hnd2.1
    · simp only [mapDelete, if_neg hb, List.map_cons, List.mem_cons, not_or]
      refine ⟨?_, ih hnd2.2⟩
      intro hh
      exact (by simpa using hb : ¬ x.id = i) hh.symm

theorem foldl_mapDelete_lookup :
    ∀ (ids : List String) (m : OperationQueue),
      ((m.map (fun o => o.id)).Nodup) → ∀ i,
      (i ∈ ids → lookupOperation (ids.foldl mapDelete m) i = none) ∧
      (i ∉ ids → lookupOperation (ids.foldl mapDelete m) i = lookupOperation m i) := by
  intro ids
  induction ids with
  | nil =>
    intro m hnd i
    exact ⟨fun h => absurd h (List.not_mem_nil i), fun _ => rfl⟩
  | cons j rest ih =>
    intro m hnd i
    have hnd2 : (((mapDelete m j).map (fun o => o.id)).Nodup) :=
      hnd.sublist (mapDelete_ids_sublist m j)
    simp only [List.foldl_cons]
    constructor
    · intro hi
      rcases List.mem_cons.mp hi with rfl | hir
      · by_cases hr : i ∈ rest
        · exact (ih (mapDelete m i) hnd2 i).1 hr
        · rw [(ih (mapDelete m i) hnd2 i).2 hr]
          exact lookupOperation_eq_none (mapDelete_self_not_mem hnd)
      · exact (ih (mapDelete m j) hnd2 i).1 hir
    · intro hi
      simp only [List.mem_cons, not_or] at hi
      rw [(ih (mapDelete m j) hnd2 i).2 hi.2]
      exact lookupOperation_mapDelete_ne m j i hi.1

theorem foldl_mapSet_lookup_not_mem :
    ∀ (ops : List VectorOperation) (m : OperationQueue) (i : String),
      i ∉ ops.map (fun o => o.id) →
      lookupOperation (ops.foldl (fun m o => mapSet m (bumpRetry o)) m) i =
        lookupOperation m i := by
  intro ops
  induction ops with
  | nil => intro m i _; rfl
  | cons o rest ih =>
    intro m i hi
    simp only [List.map_cons, List.mem_cons, not_or] at hi
    simp only [List.foldl_cons]
    rw [ih _ i hi.2]
    exact lookupOperation_mapSet_ne m (bumpRetry o) i hi.1

theorem foldl_mapSet_lookup_mem :
    ∀ (ops : List VectorOperation) (m : OperationQueue) (x : VectorOperation),
      ((ops.map (fun o => o.id)).Nodup) → x ∈ ops →
      lookupOperation (ops.foldl (fun m o => mapSet m (bumpRetry o)) m) x.id =
        some (bumpRetry x) := by
  intro ops
  induction ops with
  | nil => intro m x _ hx; cases hx
  | cons o rest ih =>
    intro m x hnd hx
    have hnd2 : o.id ∉ rest.map (fun o => o.id) ∧ ((rest.map (fun o => o.id)).Nodup) := by
      simpa [List.nodup_cons] using hnd
    simp only [List.foldl_cons]
    rcases List.mem_cons.mp hx with rfl | hxr
    · rw [foldl_mapSet_lookup_not_mem rest _ x.id hnd2.1]
      exact lookupOperation_mapSet_self m (bumpRetry x)
    · exact ih _ x hnd2.2 hxr

theorem mapSet_ids_of_mem {q : OperationQueue} {op : VectorOperation}
    (h : op.id ∈ q.map (fun o => o.id)) :
    (mapSet q op).map (fun o => o.id) = q.map (fun o => o.id) := by
  induction q with
  | nil => simp at h
  | cons x xs ih =>
    by_cases hb : (x.id == op.id) = true
    · simp only [mapSet, if_pos hb, List.map_cons]
      have hxid : x.id = op.id := by simpa using hb
      rw [hxid]
    · simp only [mapSet, if_neg hb, List.map_cons]
      have hx : ¬ op.id = x.id := by
        intro hh
        exact (by simpa using hb : ¬ x.id = op.id) hh.symm
      have h2 : op.id ∈ xs.map (fun o => o.id) := by
        have h4 := h
        rw [List.map_cons] at h4
        rcases List.mem_cons.mp h4 with h3 | h3
        · exact absurd h3 hx
        · exact h3
      rw [ih h2]

theorem foldl_mapSet_ids :
    ∀ (ops : List VectorOperation) (m : OperationQueue),
      (∀ o ∈ ops, o.id ∈ m.map (fun o => o.id)) →
      (ops.foldl (fun m o => mapSet m (bumpRetry o)) m).map (fun o => o.id) =
        m.map (fun o => o.id) := by
  intro ops
  induction ops with
  | nil => intro m _; rfl
  | cons o rest ih =>
    intro m h
    simp only [List.foldl_cons]
    have h1 : (mapSet m (bumpRetry o)).map (fun o => o.id) = m.map (fun o => o.id) :=
      mapSet_ids_of_mem (h o (List.mem_cons_self _ _))
    have hsub : ∀ o2 ∈ rest, o2.id ∈ (mapSet m (bumpRetry o)).map (fun o => o.id) := by
      intro o2 ho2
      rw [h1]
      exact h o2 (List.mem_cons_of_mem _ ho2)
    rw [ih _ hsub, h1]

theorem processOne_foldl (now : Int) (replay : String → Bool) :
    ∀ (ops : List VectorOperation) (pr : List String) (m : OperationQueue),
      ops.foldl (processOneOperation now replay) (pr, m) =
        (pr ++ (ops.filter (passCond now replay)).map (fun o => o.id),
         (ops.filter (fun o => !(passCond now replay o))).foldl
           (fun m o => mapSet m (bumpRetry o)) m) := by
  intro ops
  induction ops with
  | nil => intro pr m; simp
  | cons o rest ih =>
    intro pr m
    simp only [List.foldl_cons]
    by_cases h1 : maxRetries ≤ o.retryCount
    · have hp : passCond now replay o = true := by simp [passCond, h1]
      have hstep : processOneOperation now replay (pr, m) o = (pr ++ [o.id], m) := by
        simp [processOneOperation, h1]
      rw [hstep, ih]
      simp [hp, List.filter_cons, List.append_assoc]
    · by_cases h2 : (ageHorizonMs : Int) < now - (o.timestamp : Int)
      · have hp : passCond now replay o = true := by simp [passCond, h2]
        have hstep : processOneOperation now replay (pr, m) o = (pr ++ [o.id], m) := by
          simp [processOneOperation, h1, h2]
        rw [hstep, ih]
        simp [hp, List.filter_cons, List.append_assoc]
      · by_cases h3 : replay o.id = true
        · have hp : passCond now replay o = true := by simp [passCond, h3]
          have hstep : processOneOperation now replay (pr, m) o = (pr ++ [o.id], m) := by
            simp [processOneOperation, h1, h2, h3]
          rw [hstep, ih]
          simp [hp, List.filter_cons, List.append_assoc]
        · rw [Bool.not_eq_true] at h3
          have hp : passCond now replay o = false := by
            simp [passCond, h1, h2, h3]
          have hstep : processOneOperation now replay (pr, m) o =
              (pr, mapSet m (bumpRetry o)) := by
            simp [processOneOperation, h1, h2, h3, bumpRetry]
          rw [hstep, ih]
          simp [hp, List.filter_cons]

/-- Claim C7: for every item present at the start of a drain pass, the item
is removed from the queue when its retry counter is ≥ 3 (max retries), or
its age exceeds 24 hours, or its replay succeeds; otherwise (replay fails —
a thrown error is caught and handled identically) the item remains queued
with its retry counter incremented by exactly one, so the counter increases
monotonically across passes until the item is dropped. `replay` is the
outcome of `retryOperation` per item id (the current `retryOperation` is a
stub that always returns `false`, which the spec's design notes
acknowledge; the drain policy is modelled parametrically in it). -/
theorem processQueuedOperations_item (now : Int) (replay : String → Bool)
    (q : OperationQueue) (x : VectorOperation)
    (hwf : QueueWF q) (hx : x ∈ q) :
    ((maxRetries ≤ x.retryCount ∨ (ageHorizonMs : Int) < now - (x.timestamp : Int) ∨
        replay x.id = true) →
      lookupOperation (processQueuedOperations now replay q) x.id = none) ∧
    (x.retryCount < maxRetries → now - (x.timestamp : Int) ≤ (ageHorizonMs : Int) →
      replay x.id = false →
      lookupOperation (processQueuedOperations now replay q) x.id =
        some (bumpRetry x)) := by
  have hne : q.isEmpty = false := by
    cases q with
    | nil => cases hx
    | cons a l => rfl
  have hproc : processQueuedOperations now replay q =
      ((q.filter (passCond now replay)).map (fun o => o.id)).foldl mapDelete
        ((q.filter (fun o => !(passCond now replay o))).foldl
          (fun m o => mapSet m (bumpRetry o)) q) := by
    unfold processQueuedOperations
    rw [hne]
    simp only [Bool.false_eq_true, if_false]
    rw [processOne_foldl now replay q [] q]
    simp
  have hids : ((q.filter (fun o => !(passCond now replay o))).foldl
      (fun m o => mapSet m (bumpRetry o)) q).map (fun o => o.id) =
        q.map (fun o => o.id) := by
    apply foldl_mapSet_ids
    intro o ho
    exact List.mem_map_of_mem _ (List.mem_of_mem_filter ho)
  have hnd2 : (((q.filter (fun o => !(passCond now replay o))).foldl
      (fun m o => mapSet m (bumpRetry o)) q).map (fun o => o.id)).Nodup := by
    rw [hids]
    exact hwf.1
  constructor
  · intro hcond
    have hp : passCond now replay x = true := by
      rcases hcond with h | h | h
      · simp [passCond, h]
      · simp [passCond, h]
      · simp [passCond, h]
    have hmem : x.id ∈ (q.filter (passCond now replay)).map (fun o => o.id) :=
      List.mem_map_of_mem _ (List.mem_filter.mpr ⟨hx, hp⟩)
    rw [hproc]
    exact (foldl_mapDelete_lookup _ _ hnd2 x.id).1 hmem
  · intro hr ha hrep
    have hp : passCond now replay x = false := by
      simp [passCond, hrep, Nat.not_le.mpr hr, not_lt.mpr ha]
    have hnotmem : x.id ∉ (q.filter (passCond now replay)).map (fun o => o.id) := by
      intro hm
      obtain ⟨y, hy, hyid⟩ := List.mem_map.mp hm
      have hyq : y ∈ q := List.mem_of_mem_filter hy
      have hyp : passCond now replay y = true := List.of_mem_filter hy
      have hxy : y = x := List.inj_on_of_nodup_map hwf.1 hyq hx hyid
      rw [hxy, hp] at hyp
      cases hyp
    rw [hproc]
    rw [(foldl_mapDelete_lookup _ _ hnd2 x.id).2 hnotmem]
    have hfnd : ((q.filter (fun o => !(passCond now replay o))).map
        (fun o => o.id)).Nodup :=
      hwf.1.sublist ((List.filter_sublist q).map _)
    have hmemf : x ∈ q.filter (fun o => !(passCond now replay o)) :=
      List.mem_filter.mpr ⟨hx, by simp [hp]⟩
    exact foldl_mapSet_lookup_mem _ q x hfnd hmemf

/-- Witness for `processQueuedOperations_item` on a two-item queue: the item
with three prior retries is dropped, the fresh item stays with its counter
incremented to one. -/
theorem processQueuedOperations_item_witness :
    lookupOperation
      (processQueuedOperations 1000 (fun _ => false)
        [⟨"op1", OpType.add, "", 0, 3⟩, ⟨"op2", OpType.add, "", 0, 0⟩]) "op1" =
      none ∧
    lookupOperation
      (processQueuedOperations 1000 (fun _ => false)
        [⟨"op1", OpType.add, "", 0, 3⟩, ⟨"op2", OpType.add, "", 0, 0⟩]) "op2" =
      some ⟨"op2", OpType.add, "", 0, 1⟩ := by
  have hwf : QueueWF [⟨"op1", OpType.add, "", 0, 3⟩, ⟨"op2", OpType.add, "", 0, 0⟩] := by
    constructor
    · simp [List.nodup_cons]
    · intro o ho
      rcases List.mem_cons.mp ho with rfl | ho2
      · simp
      · rcases List.mem_cons.mp ho2 with rfl | ho3
        · simp
        · cases ho3
  have h1 := processQueuedOperations_item 1000 (fun _ => false)
    [⟨"op1", OpType.add, "", 0, 3⟩, ⟨"op2", OpType.add, "", 0, 0⟩]
    ⟨"op1", OpType.add, "", 0, 3⟩ hwf (by simp)
  have h2 := processQueuedOperations_item 1000 (fun _ => false)
    [⟨"op1", OpType.add, "", 0, 3⟩, ⟨"op2", OpType.add, "", 0, 0⟩]
    ⟨"op2", OpType.add, "", 0, 0⟩ hwf (by simp)
  exact ⟨h1.1 (Or.inl (by decide)), h2.2 (by decide) (by decide) rfl⟩
